import Mathlib

/-!
# Verification of the medical-research-assistant core

Shallow embedding of the backend of the `medical-research-assistant`
repository (Python), together with proofs of the specification claims.

Conventions used throughout:

* Python `Optional[T]` becomes `Option T`; Python string/list truthiness
  (`if x:` being false for `None`, `""` and `[]`) is modelled explicitly.
* Python `int` becomes `Int` (or `Nat` for values that are provably
  non-negative, such as list indices and lengths).
* The opaque collaborators (ChromaDB, the Anthropic client, the file
  system) are modelled as explicit function arguments or as plain data;
  the repository's own logic is translated line by line.
-/

namespace MedRag

/-- Python truthiness of an `Optional[str]`: `None` and `""` are falsy. -/
def optStrTruthy : Option String → Bool
  | none => false
  | some s => !s.isEmpty

/-- Python `sep.join(parts)`. -/
def pyJoin (sep : String) : List String → String
  | [] => ""
  | [s] => s
  | s :: rest => s ++ sep ++ pyJoin sep rest

/-! ## Evidence Store Facade: filter construction

Embedding of `VectorStore._build_filter` (src/backend/vector_store.py,
lines 100-121).  A ChromaDB `where` document is either an equality
predicate on a metadata field, an inclusive year-range predicate
(`{"year": {"$gte": lo, "$lte": hi}}`), or an `$and` of a list of
predicates. -/

inductive ChromaFilter : Type where
  | eq (field : String) (value : String)
  | yearRange (minYear maxYear : Int)
  | and (clauses : List ChromaFilter)

/-- The list of predicates the source pushes onto `filters`, in source
order (topic, then paper type, then year range).  `if topic:` in Python
is false for `None` and for the empty string, which `optStrTruthy`
reflects. -/
def providedPreds (topic paper_type : Option String)
    (year_range : Option (Int × Int)) : List ChromaFilter :=
  (match topic with
    | some t => if t.isEmpty then [] else [ChromaFilter.eq "topic" t]
    | none => []) ++
  (match paper_type with
    | some p => if p.isEmpty then [] else [ChromaFilter.eq "paper_type" p]
    | none => []) ++
  (match year_range with
    | some (mn, mx) => [ChromaFilter.yearRange mn mx]
    | none => [])

/-- `VectorStore._build_filter`: zero predicates yield `None`, one
predicate is returned unwrapped, two or more are wrapped in `$and`. -/
def build_filter (topic paper_type : Option String)
    (year_range : Option (Int × Int)) : Option ChromaFilter :=
  let filters :=
    (match topic with
      | some t => if t.isEmpty then [] else [ChromaFilter.eq "topic" t]
      | none => []) ++
    (match paper_type with
      | some p => if p.isEmpty then [] else [ChromaFilter.eq "paper_type" p]
      | none => []) ++
    (match year_range with
      | some (mn, mx) => [ChromaFilter.yearRange mn mx]
      | none => [])
  match filters with
  | [] => none
  | [f] => some f
  | fs => some (ChromaFilter.and fs)

/-! ## Search Capability: year-range translation

Embedding of the year-range construction in
`MedicalLiteratureSearchTool.execute` (src/backend/search_tools.py,
lines 76-81). -/

/-- The `year_range` tuple `execute` passes to `VectorStore.search`:
`None` when neither bound is given, otherwise a complete inclusive range
with sentinels `1900` and `2100` filling the missing ends. -/
def build_year_range (min_year max_year : Option Int) : Option (Int × Int) :=
  if min_year.isSome || max_year.isSome then
    some (min_year.getD 1900, max_year.getD 2100)
  else
    none

/-! ## Search Capability: result formatting and citation sources

Embedding of `MedicalLiteratureSearchTool` (src/backend/search_tools.py).
The `VectorStore` collaborator is modelled abstractly as a pair of
functions (`search`, `get_paper_url`); the tool's own logic — error
handling, the "no results" message, result formatting and the
`last_sources` side channel — is translated from the source. -/

/-- A citation source (`models.Source`): display text plus optional URL. -/
structure Source : Type where
  text : String
  url : Option String
deriving DecidableEq, Repr

/-- The metadata fields of one content chunk that
`MedicalLiteratureSearchTool._format_results` reads via `meta.get`. -/
structure ChunkMeta : Type where
  paper_title : Option String
  journal : Option String
  year : Option Int
  section_title : Option String
deriving DecidableEq, Repr

/-- `vector_store.SearchResults`: parallel lists of documents, metadata
and distances, plus an optional error marker.  (Distances are floats the
tool never inspects; their values are irrelevant, so they are carried as
integers.) -/
structure SearchResults : Type where
  documents : List String
  metadata : List ChunkMeta
  distances : List Int
  error : Option String
deriving DecidableEq, Repr

/-- `SearchResults.is_empty`. -/
def SearchResults.is_empty (r : SearchResults) : Bool :=
  r.documents.isEmpty

/-- The two `VectorStore` operations the tool calls, modelled as opaque
functions (the backend is an external collaborator). -/
structure StoreModel : Type where
  search : String → Option String → Option String → Option (Int × Int) → SearchResults
  get_paper_url : String → Option String

/-- `meta.get('paper_title', 'Unknown Paper')`. -/
def metaTitle (m : ChunkMeta) : String := m.paper_title.getD "Unknown Paper"

/-- `meta.get('journal', 'Unknown Journal')`. -/
def metaJournal (m : ChunkMeta) : String := m.journal.getD "Unknown Journal"

/-- `meta.get('year', 'Unknown Year')`, as it is rendered into the
source text. -/
def metaYearStr (m : ChunkMeta) : String :=
  match m.year with
  | some y => toString y
  | none => "Unknown Year"

/-- `meta.get('section_title', '')`. -/
def metaSection (m : ChunkMeta) : String := m.section_title.getD ""

/-- The bracketed context header `_format_results` builds for one result
(`[title]` or `[title | section]`; `if section:` is Python truthiness). -/
def resultHeader (m : ChunkMeta) : String :=
  "[" ++ metaTitle m ++
    (if (metaSection m).isEmpty then "" else " | " ++ metaSection m) ++ "]"

/-- The source entry `_format_results` records the first time a paper
title is seen: text `"title - year - journal"` plus the store URL. -/
def mkSource (store : StoreModel) (m : ChunkMeta) : Source :=
  { text := metaTitle m ++ " - " ++ metaYearStr m ++ " - " ++ metaJournal m,
    url := store.get_paper_url (metaTitle m) }

/-- One iteration of the `for doc, meta in zip(...)` loop of
`_format_results`: append the formatted block, and record a source for
the paper title if it has not been seen yet (the Python `sources` dict
is insertion-ordered, hence the association list). -/
def formatFold (store : StoreModel)
    (acc : List String × List (String × Source)) (dm : String × ChunkMeta) :
    List String × List (String × Source) :=
  let (fmts, srcs) := acc
  let (doc, m) := dm
  let t := metaTitle m
  let srcs' := if t ∈ srcs.map Prod.fst then srcs else srcs ++ [(t, mkSource store m)]
  (fmts ++ [resultHeader m ++ "\n" ++ doc], srcs')

/-- The insertion-ordered source dictionary built by `_format_results`
over the zipped (document, metadata) pairs. -/
def sourcesAssoc (store : StoreModel) (pairs : List (String × ChunkMeta)) :
    List (String × Source) :=
  (pairs.foldl (formatFold store) ([], [])).2

/-- `MedicalLiteratureSearchTool._format_results`: returns the formatted
output joined by blank lines together with the new `last_sources` list
(`list(sources.values())`). -/
def format_results (store : StoreModel) (results : SearchResults) :
    String × List Source :=
  let st := (results.documents.zip results.metadata).foldl (formatFold store) ([], [])
  (pyJoin "\n\n" st.1, st.2.map Prod.snd)

/-- The year fragment of the filter echo (`f" from years {a}-{b}"`). -/
def yearInfo : Option (Int × Int) → String
  | some (a, b) => " from years " ++ toString a ++ "-" ++ toString b
  | none => ""

/-- The `filter_info` string accumulated in the empty-results branch of
`execute`: one fragment per applied (truthy) filter. -/
def filterInfo (topic paper_type : Option String)
    (year_range : Option (Int × Int)) : String :=
  (if optStrTruthy topic then " in topic \x27" ++ topic.getD "" ++ "\x27" else "") ++
  (if optStrTruthy paper_type then " of type \x27" ++ paper_type.getD "" ++ "\x27" else "") ++
  yearInfo year_range

/-- The "no results" message built in the empty branch of `execute`. -/
def noResultsMessage (topic paper_type : Option String)
    (year_range : Option (Int × Int)) : String :=
  "No relevant medical literature found" ++ filterInfo topic paper_type year_range ++ "."

/-- `MedicalLiteratureSearchTool.execute`.  The tool's mutable
`last_sources` field is passed in and the updated value is returned
alongside the output string (state-passing style).  `if results.error:`
and the filter echoes use Python truthiness. -/
def MedicalLiteratureSearchTool.execute (store : StoreModel)
    (last_sources : List Source) (query : String)
    (topic paper_type : Option String) (min_year max_year : Option Int) :
    String × List Source :=
  let year_range := build_year_range min_year max_year
  let results := store.search query topic paper_type year_range
  if optStrTruthy results.error then
    (results.error.getD "", last_sources)
  else if results.is_empty then
    (noResultsMessage topic paper_type year_range, last_sources)
  else
    format_results store results

/-- First-occurrence deduplication of a list of titles: the key order of
a Python dict populated left to right. -/
def firstOccur (l : List String) : List String :=
  l.foldl (fun acc t => if t ∈ acc then acc else acc ++ [t]) []

/-- The zipped (document, metadata) pairs `_format_results` iterates for
one invocation of `execute`. -/
def searchPairs (store : StoreModel) (query : String)
    (topic paper_type : Option String) (min_year max_year : Option Int) :
    List (String × ChunkMeta) :=
  (store.search query topic paper_type
      (build_year_range min_year max_year)).documents.zip
    (store.search query topic paper_type
      (build_year_range min_year max_year)).metadata

/-- A concrete store exercising the success path: two hits carrying the
same paper title. -/
def dupStore : StoreModel :=
  { search := fun _ _ _ _ =>
      { documents := ["d1", "d2"],
        metadata :=
          [ { paper_title := some "T", journal := some "J", year := some 2020,
              section_title := some "Intro" },
            { paper_title := some "T", journal := some "J", year := some 2020,
              section_title := some "Methods" } ],
        distances := [0, 0],
        error := none },
    get_paper_url := fun _ => some "https://doi.org/10.1/x" }

/-! ## Chunker

Embedding of `DocumentProcessor.chunk_text` (src/backend/document_processor.py,
lines 27-93).  The whitespace normalization and the regex sentence split
are an external text transformation; the embedding starts from their
output, the list of cleaned sentences (each stripped and non-empty after
the `if s.strip()` filter).  The greedy packing loop, the overlap window
and the forced-progress rule are translated statement by statement. -/

/-- The inner `for j in range(i, ...)` loop: greedily extend the current
chunk with the next sentence unless that would push `current_size` past
`chunk_size` while the chunk is already non-empty. -/
def packChunk (cs : Nat) (acc : List String) (accSize : Nat) :
    List String → List String
  | [] => acc
  | s :: rest =>
      let space := if acc = [] then 0 else 1
      let add := s.length + space
      if cs < accSize + add ∧ acc ≠ [] then acc
      else packChunk cs (acc ++ [s]) (accSize + add) rest

/-- The per-sentence lengths scanned by the overlap loop, in reverse
chunk order: `len(chunk[k]) + (1 if k < len(chunk) - 1 else 0)` for
`k = len-1, len-2, ...`. -/
def revLens : List String → List Nat
  | [] => []
  | x :: xs => x.length :: xs.map (fun s => s.length + 1)

/-- The `overlap_sentences` counter: walk the reversed lengths, counting
entries while the accumulated size stays within `chunk_overlap`. -/
def takeWhileSum (ov : Nat) : Nat → List Nat → Nat
  | _, [] => 0
  | acc, n :: ns => if acc + n ≤ ov then 1 + takeWhileSum ov (acc + n) ns else 0

/-- Number of trailing sentences of the just-closed chunk reused as
overlap for the next chunk. -/
def overlapSentences (ov : Nat) (chunk : List String) : Nat :=
  takeWhileSum ov 0 (revLens chunk.reverse)

/-- The next start index computed at the end of one loop iteration:
with positive overlap, `max(i + len(chunk) - overlap_sentences, i + 1)`
(forced one-sentence progress); otherwise `i + len(chunk)`. -/
def nextIndex (cs ov : Nat) (sents : List String) (i : Nat) : Nat :=
  if 0 < ov then
    max (i + (packChunk cs [] 0 (sents.drop i)).length
          - overlapSentences ov (packChunk cs [] 0 (sents.drop i))) (i + 1)
  else i + (packChunk cs [] 0 (sents.drop i)).length

/-- The `while i < len(sentences)` loop, producing each chunk as its
list of sentences.  The `else: i += 1` branch (no sentence fits) is kept
even though it is unreachable, since `packChunk` never returns an empty
chunk on a non-empty suffix. -/
def chunkLists (cs ov : Nat) (sents : List String) (i : Nat) :
    List (List String) :=
  if hlt : i < sents.length then
    if hne : (packChunk cs [] 0 (sents.drop i)).isEmpty then
      chunkLists cs ov sents (i + 1)
    else
      packChunk cs [] 0 (sents.drop i) ::
        chunkLists cs ov sents (nextIndex cs ov sents i)
  else []
termination_by sents.length - i
decreasing_by
  · omega
  · have h1 : packChunk cs [] 0 (sents.drop i) ≠ [] := by
      simpa [List.isEmpty_iff] using hne
    have h2 : 0 < (packChunk cs [] 0 (sents.drop i)).length :=
      List.length_pos.mpr h1
    have h3 : i + 1 ≤ nextIndex cs ov sents i := by
      unfold nextIndex
      split
      · exact Nat.le_max_right _ _
      · omega
    omega

/-- `DocumentProcessor.chunk_text` from the cleaned sentence list on:
each chunk is emitted as `' '.join(current_chunk)`. -/
def chunk_text (cs ov : Nat) (sentences : List String) : List String :=
  (chunkLists cs ov sentences 0).map (fun c => pyJoin " " c)

/-- The chunking loop cut off after `fuel` iterations.  The progress
theorem below shows `sents.length - i` iterations always reach the
loop's exit, so this bounded loop agrees with `chunkLists` — that is the
claimed "at most one iteration per sentence" termination bound. -/
def chunkLoop (cs ov : Nat) (sents : List String) : Nat → Nat → List (List String)
  | 0, _ => []
  | fuel + 1, i =>
    if i < sents.length then
      if (packChunk cs [] 0 (sents.drop i)).isEmpty then
        chunkLoop cs ov sents fuel (i + 1)
      else
        packChunk cs [] 0 (sents.drop i) ::
          chunkLoop cs ov sents fuel (nextIndex cs ov sents i)
    else []

/-- Length of `' '.join(l)`: sentence lengths plus one separator between
consecutive sentences. -/
def joinLen : List String → Nat
  | [] => 0
  | [s] => s.length
  | s :: rest => s.length + 1 + joinLen rest

/-! ## Document Parser: chunk assembly

Embedding of the chunk-construction part of
`DocumentProcessor.process_medical_paper` (src/backend/document_processor.py,
lines 306-349).  XML parsing and metadata extraction happen before this
point; the embedding takes their outputs (title, identifiers, the
optional abstract text, and the body sections in document order) as
inputs.  Each body section arrives as its raw optional `<title>` text
(the fallback to "Untitled Section" from `_extract_body_sections`, line
209, is part of the model) paired with its concatenated paragraph text.
The sentence-chunking of a section's text is abstracted as a function
`chunker` (the composition of `chunk_text` with the sentence split); the
claims proved below hold for every such function. -/

/-- `models.PaperChunk`. -/
structure PaperChunk : Type where
  content : String
  paper_title : String
  pmcid : Option String
  doi : Option String
  journal : Option String
  year : Option Int
  topic : Option String
  section_title : String
  chunk_index : Nat
deriving DecidableEq, Repr

/-- Section label resolution from `_extract_body_sections`:
`title_elem.text.strip() if title_elem is not None and title_elem.text
else "Untitled Section"`.  The argument is the raw text of the section's
`<title>` element (`none` when the element or its text is absent). -/
def sectionLabel : Option String → String
  | some t => if t.isEmpty then "Untitled Section" else t.trim
  | none => "Untitled Section"

/-- The provenance header prepended to every chunk:
`"Paper: {title} | Section: {section}\n{chunk}"`. -/
def chunkWithContext (title label piece : String) : String :=
  "Paper: " ++ title ++ " | Section: " ++ label ++ "\n" ++ piece

/-- One `PaperChunk` as built inside `process_medical_paper`. -/
def mkPaperChunk (title : String) (pmcid doi journal : Option String)
    (year : Option Int) (topic : Option String) (label piece : String)
    (idx : Nat) : PaperChunk :=
  { content := chunkWithContext title label piece
    paper_title := title
    pmcid := pmcid
    doi := doi
    journal := journal
    year := year
    topic := topic
    section_title := label
    chunk_index := idx }

/-- The body-section loop: walk sections in document order, chunk each
section's text, and emit one `PaperChunk` per piece while incrementing
the running `chunk_counter`. -/
def buildSectionChunks (chunker : String → List String) (title : String)
    (pmcid doi journal : Option String) (year : Option Int)
    (topic : Option String) :
    List (Option String × String) → Nat → List PaperChunk
  | [], _ => []
  | (t, c) :: rest, counter =>
      ((chunker c).enumFrom counter).map
        (fun kp => mkPaperChunk title pmcid doi journal year topic
          (sectionLabel t) kp.2 kp.1) ++
      buildSectionChunks chunker title pmcid doi journal year topic rest
        (counter + (chunker c).length)

/-- The chunk list produced by `process_medical_paper`: the abstract (if
present and non-empty, cf. `_extract_abstract`) as a single chunk with
index 0 and label "Abstract", then the body sections. -/
def processPaperChunks (chunker : String → List String) (title : String)
    (pmcid doi journal : Option String) (year : Option Int)
    (topic : Option String) (abstract : Option String)
    (sections : List (Option String × String)) : List PaperChunk :=
  let abstractChunks : List PaperChunk :=
    if optStrTruthy abstract then
      [mkPaperChunk title pmcid doi journal year topic "Abstract"
        (abstract.getD "") 0]
    else []
  abstractChunks ++
    buildSectionChunks chunker title pmcid doi journal year topic sections
      abstractChunks.length

/-! ## Answer Orchestrator

Embedding of `AIGenerator.generate_response` and
`AIGenerator._handle_tool_execution` (src/backend/ai_generator.py).  The
Anthropic client is modelled as a function from a request to a response;
tool inputs and tool schemas are opaque type parameters.  Because the
modelled client is a function of the request, the retry loop of the
final call always sees the same response, so it collapses to a single
inspection of that response. -/

/-- One content block of a model response: a text block or a tool-use
request (name, structured input, invocation id). -/
inductive ContentBlock (Input : Type) : Type where
  | text (t : String)
  | toolUse (nm : String) (inp : Input) (id : String)

/-- The body of a message: the initial plain-text user query, the echoed
assistant content blocks, or the combined tool-result message. -/
inductive MsgContent (Input : Type) : Type where
  | text (s : String)
  | blocks (bs : List (ContentBlock Input))
  | toolResults (rs : List (String × String))

/-- One entry of the `messages` list sent to the model. -/
structure Message (Input : Type) : Type where
  role : String
  content : MsgContent Input

/-- A request to the generative-model endpoint: message list, system
text, and the tool schemas (`none` when the `tools` key is absent). -/
structure GenRequest (Input Schema : Type) : Type where
  messages : List (Message Input)
  system : String
  tools : Option (List Schema)

/-- A model response: stop reason and content blocks. -/
structure ModelResponse (Input : Type) : Type where
  stop_reason : String
  content : List (ContentBlock Input)

/-- Observable outcome of one `generate_response` call.  `answer` is
`none` when the Python code would raise (first content block missing or
not a text block on the direct path); `secondCallMessages` records the
message list of MODEL_CALL_2 when it happens; `secondCallTools` records
the tool schemas attached to MODEL_CALL_2. -/
structure GenTrace (Input Schema : Type) : Type where
  answer : Option String
  toolExecutions : Nat
  secondCallMessages : Option (List (Message Input))
  secondCallTools : Option (List Schema)

/-- The system text: the static prompt, plus the rendered history when
one is given (`if conversation_history:` is Python truthiness). -/
def systemContent (systemPrompt : String) (history : Option String) : String :=
  if optStrTruthy history then
    systemPrompt ++ "\n\nPrevious conversation:\n" ++ history.getD ""
  else systemPrompt

/-- The `tools` entry of the first API call: present only when the
passed list is truthy (`if tools:`). -/
def toolsParam {Schema : Type} (tools : Option (List Schema)) :
    Option (List Schema) :=
  match tools with
  | some l => if l.isEmpty then none else some l
  | none => none

/-- The initial `messages` list: `[{"role": "user", "content": query}]`. -/
def initialMessages (Input : Type) (query : String) : List (Message Input) :=
  [{ role := "user", content := MsgContent.text query }]

/-- The tool-result entries collected by `_handle_tool_execution`: one
`(tool_use_id, output)` pair per `tool_use` content block, executed via
the tool manager. -/
def collectToolResults {Input : Type} (exec : String → Input → String) :
    List (ContentBlock Input) → List (String × String)
  | [] => []
  | ContentBlock.text _ :: rest => collectToolResults exec rest
  | ContentBlock.toolUse nm inp id :: rest =>
      (id, exec nm inp) :: collectToolResults exec rest

/-- Number of `tool_use` blocks in a response's content — the number of
capability invocations the model requested. -/
def countToolUses {Input : Type} : List (ContentBlock Input) → Nat
  | [] => 0
  | ContentBlock.text _ :: rest => countToolUses rest
  | ContentBlock.toolUse _ _ _ :: rest => countToolUses rest + 1

/-- Reading the final answer out of the MODEL_CALL_2 response: the text
of the first content block, or the fixed apology when the content is
empty or its first block has no text field (the retry with a
deterministic client returns the same response, so one inspection
suffices). -/
def finalAnswer {Input : Type} (resp : ModelResponse Input) : String :=
  match resp.content with
  | [] => "I apologize, but I encountered an issue generating a response. Please try again."
  | ContentBlock.text t :: _ => t
  | ContentBlock.toolUse _ _ _ :: _ =>
      "I apologize, but I encountered an issue generating a response. Please try again."

/-- `AIGenerator._handle_tool_execution`: echo the assistant blocks,
execute every requested tool call, append the combined tool-result
message when any results exist, and re-invoke the model without tools. -/
def handleToolExecution {Input Schema : Type}
    (client : GenRequest Input Schema → ModelResponse Input)
    (exec : String → Input → String) (baseMessages : List (Message Input))
    (system : String) (initial : ModelResponse Input) :
    GenTrace Input Schema :=
  let messages := baseMessages ++
    [{ role := "assistant", content := MsgContent.blocks initial.content }]
  let tool_results := collectToolResults exec initial.content
  let messages :=
    if tool_results.isEmpty then messages
    else messages ++ [{ role := "user", content := MsgContent.toolResults tool_results }]
  let finalResp := client { messages := messages, system := system, tools := none }
  { answer := some (finalAnswer finalResp)
    toolExecutions := tool_results.length
    secondCallMessages := some messages
    secondCallTools := none }

/-- `AIGenerator.generate_response`: one model call, then at most one
tool round-trip when the stop reason is `tool_use` and a tool manager
was supplied. -/
def generate_response {Input Schema : Type}
    (client : GenRequest Input Schema → ModelResponse Input)
    (systemPrompt query : String) (history : Option String)
    (tools : Option (List Schema))
    (tool_manager : Option (String → Input → String)) :
    GenTrace Input Schema :=
  let system := systemContent systemPrompt history
  let msgs := initialMessages Input query
  let response := client { messages := msgs, system := system, tools := toolsParam tools }
  match tool_manager with
  | some exec =>
      if response.stop_reason = "tool_use" then
        handleToolExecution client exec msgs system response
      else
        { answer :=
            match response.content with
            | ContentBlock.text t :: _ => some t
            | _ => none
          toolExecutions := 0
          secondCallMessages := none
          secondCallTools := none }
  | none =>
      { answer :=
          match response.content with
          | ContentBlock.text t :: _ => some t
          | _ => none
        toolExecutions := 0
        secondCallMessages := none
        secondCallTools := none }

/-! ## Ingestion orchestrator

Embedding of `RAGSystem.add_papers_from_folder`
(src/backend/rag_system.py, lines 65-119).  The ChromaDB catalog is
modelled as an insertion-ordered list of (title, paper) records (titles
are the collection ids) and the content collection as the list of added
chunks.  The folder walk and `process_medical_paper` are modelled by
their outputs: one `Option (Paper × chunks)` per XML file in directory
order (`none` for skipped or failing documents). -/

/-- `models.Paper`. -/
structure Paper : Type where
  title : String
  pmcid : Option String
  doi : Option String
  journal : Option String
  year : Option Int
  authors : List String
  paper_type : Option String
  topic : Option String
  keywords : List String
deriving DecidableEq, Repr

/-- The two ChromaDB collections held by `VectorStore`. -/
structure VectorStoreState : Type where
  catalog : List (String × Paper)
  content : List PaperChunk
deriving DecidableEq, Repr

/-- `VectorStore.add_paper_metadata`: adds one catalog record with the
title as id. -/
def add_paper_metadata (st : VectorStoreState) (paper : Paper) :
    VectorStoreState :=
  { st with catalog := st.catalog ++ [(paper.title, paper)] }

/-- `VectorStore.add_paper_content`: appends the chunk batch. -/
def add_paper_content (st : VectorStoreState) (chunks : List PaperChunk) :
    VectorStoreState :=
  { st with content := st.content ++ chunks }

/-- `VectorStore.get_existing_paper_titles`: the catalog ids. -/
def get_existing_paper_titles (st : VectorStoreState) : List String :=
  st.catalog.map Prod.fst

/-- `VectorStore.get_paper_count`. -/
def get_paper_count (st : VectorStoreState) : Nat :=
  st.catalog.length

/-- The `for file_name in os.listdir(folder_path)` loop of
`add_papers_from_folder`, over the processed results: skipped files do
nothing; a parsed paper is added only when its title is not in the
`existing_paper_titles` set, which then also receives the title. -/
def ingestLoop : VectorStoreState → List String → Nat → Nat →
    List (Option (Paper × List PaperChunk)) → VectorStoreState × Nat × Nat
  | st, _, np, nc, [] => (st, np, nc)
  | st, existing, np, nc, none :: rest => ingestLoop st existing np nc rest
  | st, existing, np, nc, some (paper, chunks) :: rest =>
      if paper.title ∈ existing then
        ingestLoop st existing np nc rest
      else
        ingestLoop (add_paper_content (add_paper_metadata st paper) chunks)
          (existing ++ [paper.title]) (np + 1) (nc + chunks.length) rest

/-- `RAGSystem.add_papers_from_folder`: optionally clear the store, read
the existing titles, then run the folder loop.  Returns the final store
state with the (papers added, chunks added) counters. -/
def add_papers_from_folder (st : VectorStoreState) (clear_existing : Bool)
    (processed : List (Option (Paper × List PaperChunk))) :
    VectorStoreState × Nat × Nat :=
  let st0 := if clear_existing then { catalog := [], content := [] } else st
  ingestLoop st0 (get_existing_paper_titles st0) 0 0 processed

/-! ## Helper lemmas -/

/-- A non-empty string has positive length. -/
theorem string_length_pos {s : String} (h : s ≠ "") : 0 < s.length := by
  cases s with
  | mk data =>
    cases data with
    | nil => exact absurd rfl h
    | cons c cs => simp

/-- `packChunk` extends its accumulator with a prefix of the remaining
sentences. -/
theorem packChunk_append (cs : Nat) :
    ∀ (l acc : List String) (accSize : Nat),
      ∃ m, packChunk cs acc accSize l = acc ++ l.take m := by
  intro l
  induction l with
  | nil => intro acc accSize; exact ⟨0, by simp [packChunk]⟩
  | cons s rest ih =>
    intro acc accSize
    by_cases hc : cs < accSize + (s.length + if acc = [] then 0 else 1) ∧ acc ≠ []
    · exact ⟨0, by simp only [packChunk, if_pos hc]; simp⟩
    · obtain ⟨m, hm⟩ := ih (acc ++ [s]) (accSize + (s.length + if acc = [] then 0 else 1))
      exact ⟨m + 1, by simp only [packChunk, if_neg hc]; simp [hm]⟩

/-- On a non-empty suffix, the greedy packer always takes at least the
first sentence. -/
theorem packChunk_ne_nil (cs : Nat) (s : String) (rest : List String) :
    packChunk cs [] 0 (s :: rest) ≠ [] := by
  obtain ⟨m, hm⟩ := packChunk_append cs rest [s] (0 + (s.length + 0))
  simp only [packChunk, List.isEmpty_nil, ite_true, ne_eq, not_true_eq_false,
    and_false, if_false]
  simp at hm
  simp [hm]

/-- The next start index strictly increases: forced progress. -/
theorem nextIndex_gt (cs ov : Nat) (sents : List String) (i : Nat)
    (h : i < sents.length) : i < nextIndex cs ov sents i := by
  have hd : sents.drop i ≠ [] := by
    rw [ne_eq, List.drop_eq_nil_iff]; omega
  obtain ⟨s, rest, hsr⟩ := List.exists_cons_of_ne_nil hd
  have hne : packChunk cs [] 0 (sents.drop i) ≠ [] := by
    rw [hsr]; exact packChunk_ne_nil cs s rest
  have hlen := List.length_pos.mpr hne
  unfold nextIndex
  split
  · exact Nat.lt_of_lt_of_le (Nat.lt_succ_self i) (Nat.le_max_right _ _)
  · omega

/-- The next start index never skips past the end of the just-closed
chunk. -/
theorem nextIndex_le (cs ov : Nat) (sents : List String) (i : Nat)
    (h : i < sents.length) :
    nextIndex cs ov sents i ≤ i + (packChunk cs [] 0 (sents.drop i)).length := by
  have hd : sents.drop i ≠ [] := by
    rw [ne_eq, List.drop_eq_nil_iff]; omega
  obtain ⟨s, rest, hsr⟩ := List.exists_cons_of_ne_nil hd
  have hne : packChunk cs [] 0 (sents.drop i) ≠ [] := by
    rw [hsr]; exact packChunk_ne_nil cs s rest
  have hlen := List.length_pos.mpr hne
  unfold nextIndex
  split
  · exact Nat.max_le.mpr ⟨Nat.sub_le _ _, by omega⟩
  · exact Nat.le_refl _

/-- `sents.length - i` loop iterations always suffice: the bounded loop
agrees with the unbounded one whenever it is given at least that much
fuel. -/
theorem chunkLoop_eq_chunkLists (cs ov : Nat) (sents : List String) :
    ∀ (fuel i : Nat), sents.length - i ≤ fuel →
      chunkLoop cs ov sents fuel i = chunkLists cs ov sents i := by
  intro fuel
  induction fuel with
  | zero =>
    intro i hf
    rw [chunkLists]
    have : ¬ i < sents.length := by omega
    simp [chunkLoop, this]
  | succ fuel ih =>
    intro i hf
    rw [chunkLists]
    by_cases hlt : i < sents.length
    · have hgt := nextIndex_gt cs ov sents i hlt
      by_cases hne : (packChunk cs [] 0 (sents.drop i)).isEmpty
      · simp [chunkLoop, hlt, hne, ih (i + 1) (by omega)]
      · simp [chunkLoop, hlt, hne, ih (nextIndex cs ov sents i) (by omega)]
    · simp [chunkLoop, hlt]

/-- Evaluation form of `chunk_text`: the loop with fuel equal to the
number of sentences. -/
theorem chunk_text_eq_loop (cs ov : Nat) (sentences : List String) :
    chunk_text cs ov sentences =
      (chunkLoop cs ov sentences sentences.length 0).map (fun c => pyJoin " " c) := by
  rw [chunk_text, chunkLoop_eq_chunkLists cs ov sentences sentences.length 0 (by omega)]

/-- `' '.join` has length `joinLen`. -/
theorem pyJoin_length : ∀ l : List String, (pyJoin " " l).length = joinLen l
  | [] => by simp [pyJoin, joinLen]
  | [s] => by simp [pyJoin, joinLen]
  | s :: t :: rest => by
      have ih := pyJoin_length (t :: rest)
      simp only [pyJoin, joinLen, String.length_append, ih]
      have : (" " : String).length = 1 := rfl
      omega

/-- `joinLen` of a chunk with at least two sentences. -/
theorem joinLen_cons (a : String) (t : List String) (h : t ≠ []) :
    joinLen (a :: t) = a.length + 1 + joinLen t := by
  cases t with
  | nil => exact absurd rfl h
  | cons b t' => simp [joinLen]

/-- Appending one sentence to a non-empty chunk adds its length plus one
separator. -/
theorem joinLen_append_singleton :
    ∀ (acc : List String) (s : String), acc ≠ [] →
      joinLen (acc ++ [s]) = joinLen acc + s.length + 1
  | [], _, h => absurd rfl h
  | [a], s, _ => by simp [joinLen]; omega
  | a :: b :: t, s, _ => by
      have ih := joinLen_append_singleton (b :: t) s (by simp)
      have h1 : joinLen (a :: b :: t) = a.length + 1 + joinLen (b :: t) :=
        joinLen_cons a (b :: t) (by simp)
      have h2 : joinLen ((a :: b :: t) ++ [s]) =
          a.length + 1 + joinLen ((b :: t) ++ [s]) := by
        rw [List.cons_append]
        exact joinLen_cons a ((b :: t) ++ [s]) (by simp)
      omega

/-- Size invariant of the greedy packer: starting from a non-empty
accumulator within the budget, the packed chunk stays within the
budget. -/
theorem packChunk_le (cs : Nat) :
    ∀ (l acc : List String) (accSize : Nat), acc ≠ [] →
      accSize = joinLen acc → accSize ≤ cs →
      joinLen (packChunk cs acc accSize l) ≤ cs := by
  intro l
  induction l with
  | nil => intro acc accSize _ hsz hle; simpa [packChunk, hsz] using hle
  | cons s rest ih =>
    intro acc accSize hacc hsz hle
    by_cases hc : cs < accSize + (s.length + if acc = [] then 0 else 1) ∧ acc ≠ []
    · simp only [packChunk, if_pos hc]; omega
    · simp only [packChunk, if_neg hc]
      rw [if_neg hacc] at hc ⊢
      have hstop : ¬ cs < accSize + (s.length + 1) := fun hlt => hc ⟨hlt, hacc⟩
      exact ih (acc ++ [s]) (accSize + (s.length + 1)) (by simp)
        (by rw [joinLen_append_singleton acc s hacc, hsz]; omega) (by omega)

/-- Each chunk the packer closes either fits in the budget or is a
single oversized sentence taken verbatim from the input. -/
theorem packChunk_spec (cs : Nat) (s : String) (rest : List String) :
    joinLen (packChunk cs [] 0 (s :: rest)) ≤ cs ∨
      (packChunk cs [] 0 (s :: rest) = [s] ∧ cs < s.length) := by
  have hstep : packChunk cs [] 0 (s :: rest) = packChunk cs [s] s.length rest := by
    simp [packChunk]
  by_cases hfit : s.length ≤ cs
  · left
    rw [hstep]
    exact packChunk_le cs rest [s] s.length (by simp) (by simp [joinLen]) hfit
  · right
    refine ⟨?_, by omega⟩
    rw [hstep]
    cases rest with
    | nil => simp [packChunk]
    | cons t rest' =>
        have hc : cs < s.length + (t.length + 1) := by omega
        simp [packChunk, hc]

/-- Every chunk of `chunkLists` is the greedy chunk packed at some valid
start index. -/
theorem chunkLists_shape (cs ov : Nat) (sents : List String) :
    ∀ (i : Nat) (cl : List String), cl ∈ chunkLists cs ov sents i →
      ∃ iSt, iSt < sents.length ∧ cl = packChunk cs [] 0 (sents.drop iSt) := by
  intro i
  induction i using chunkLists.induct cs ov sents with
  | case1 x hx hne ih =>
    intro cl hcl
    rw [chunkLists] at hcl
    simp only [dif_pos hx, dif_pos hne] at hcl
    exact ih cl hcl
  | case2 x hx hne ih =>
    intro cl hcl
    rw [chunkLists] at hcl
    simp only [dif_pos hx, dif_neg hne, List.mem_cons] at hcl
    rcases hcl with h | h
    · exact ⟨x, hx, h⟩
    · exact ih cl h
  | case3 x hx =>
    intro cl hcl
    rw [chunkLists] at hcl
    simp [dif_neg hx] at hcl

/-- Coverage: every sentence position at or after the current start
index appears in some chunk of the remaining loop. -/
theorem chunkLists_cover (cs ov : Nat) (sents : List String) :
    ∀ (i j : Nat) (hj : j < sents.length), i ≤ j →
      ∃ cl ∈ chunkLists cs ov sents i, sents[j] ∈ cl := by
  intro i
  induction i using chunkLists.induct cs ov sents with
  | case1 x hx hne ih =>
    intro j hj hij
    exfalso
    have hd : sents.drop x ≠ [] := by rw [ne_eq, List.drop_eq_nil_iff]; omega
    obtain ⟨s, rest, hsr⟩ := List.exists_cons_of_ne_nil hd
    rw [List.isEmpty_iff, hsr] at hne
    exact packChunk_ne_nil cs s rest hne
  | case2 x hx hne ih =>
    intro j hj hij
    rw [chunkLists]
    simp only [dif_pos hx, dif_neg hne]
    by_cases hin : j < x + (packChunk cs [] 0 (sents.drop x)).length
    · refine ⟨packChunk cs [] 0 (sents.drop x), List.mem_cons_self _ _, ?_⟩
      obtain ⟨m, hm⟩ := packChunk_append cs (sents.drop x) [] 0
      simp only [List.nil_append] at hm
      have hlt : j - x < (packChunk cs [] 0 (sents.drop x)).length := by omega
      have hgetEq : (packChunk cs [] 0 (sents.drop x)).get ⟨j - x, hlt⟩ =
          sents[j] := by
        simp only [List.get_eq_getElem, hm] at hlt ⊢
        rw [List.getElem_take, List.getElem_drop]
        congr 1
        omega
      rw [← hgetEq]
      exact List.get_mem _ _ hlt
    · have hnext : nextIndex cs ov sents x ≤ j := by
        have := nextIndex_le cs ov sents x hx
        omega
      obtain ⟨cl, hcl, hmem⟩ := ih j hj hnext
      exact ⟨cl, List.mem_cons_of_mem _ hcl, hmem⟩
  | case3 x hx =>
    intro j hj hij
    omega

/-- A sentence that occurs in a chunk occurs inside the joined chunk
string. -/
theorem pyJoin_mem_decomp : ∀ (l : List String) (s : String), s ∈ l →
    ∃ a b, pyJoin " " l = a ++ s ++ b
  | [], s, h => absurd h (List.not_mem_nil s)
  | [x], s, h => by
      rcases List.mem_singleton.mp h with rfl
      exact ⟨"", "", by simp [pyJoin]⟩
  | x :: y :: t, s, h => by
      rcases List.mem_cons.mp h with rfl | h'
      · exact ⟨"", " " ++ pyJoin " " (y :: t), by simp [pyJoin, String.append_assoc]⟩
      · obtain ⟨a, b, hab⟩ := pyJoin_mem_decomp (y :: t) s h'
        exact ⟨x ++ " " ++ a, b, by simp [pyJoin, hab, String.append_assoc]⟩

/-- Claim C3: for every input and every positive `maxSize`, the chunker emits
no empty chunk; every emitted chunk fits in `maxSize` unless it is a
single sentence that alone exceeds it (sentences are never split); and
every sentence of the (normalized, non-empty) input occurs inside at
least one emitted chunk. -/
theorem claim_c3_chunker_soundness (cs ov : Nat) (sentences : List String)
    (hcs : 0 < cs) (hs : ∀ s ∈ sentences, s ≠ "") :
    (∀ c ∈ chunk_text cs ov sentences, c ≠ "") ∧
    (∀ c ∈ chunk_text cs ov sentences,
        c.length ≤ cs ∨ ∃ s ∈ sentences, c = s ∧ cs < s.length) ∧
    (∀ s ∈ sentences, ∃ c ∈ chunk_text cs ov sentences, ∃ a b, c = a ++ s ++ b) := by
  have hshape : ∀ c ∈ chunk_text cs ov sentences,
      ∃ iSt s0 rest0, iSt < sentences.length ∧
        sentences.drop iSt = s0 :: rest0 ∧
        c = pyJoin " " (packChunk cs [] 0 (s0 :: rest0)) := by
    intro c hc
    rw [chunk_text, List.mem_map] at hc
    obtain ⟨cl, hcl, rfl⟩ := hc
    obtain ⟨iSt, hiSt, rfl⟩ := chunkLists_shape cs ov sentences 0 cl hcl
    have hd : sentences.drop iSt ≠ [] := by rw [ne_eq, List.drop_eq_nil_iff]; omega
    obtain ⟨s0, rest0, hsr⟩ := List.exists_cons_of_ne_nil hd
    exact ⟨iSt, s0, rest0, hiSt, hsr, by rw [hsr]⟩
  refine ⟨?_, ?_, ?_⟩
  · intro c hc
    obtain ⟨iSt, s0, rest0, hiSt, hsr, rfl⟩ := hshape c hc
    obtain ⟨m, hm⟩ := packChunk_append cs (s0 :: rest0) [] 0
    simp only [List.nil_append] at hm
    have hne : packChunk cs [] 0 (s0 :: rest0) ≠ [] := packChunk_ne_nil cs s0 rest0
    obtain ⟨hd, tl, hht⟩ := List.exists_cons_of_ne_nil hne
    have hhd : hd ∈ sentences := by
      have : hd ∈ packChunk cs [] 0 (s0 :: rest0) := by rw [hht]; simp
      rw [hm] at this
      have := List.mem_of_mem_take this
      rw [← hsr] at this
      exact List.mem_of_mem_drop this
    have hhdne := string_length_pos (hs hd hhd)
    have hjl : hd.length ≤ joinLen (packChunk cs [] 0 (s0 :: rest0)) := by
      rw [hht]
      cases tl with
      | nil => simp [joinLen]
      | cons b t => rw [joinLen_cons hd (b :: t) (by simp)]; omega
    intro heq
    have : (pyJoin " " (packChunk cs [] 0 (s0 :: rest0))).length = 0 := by
      rw [heq]; rfl
    rw [pyJoin_length] at this
    omega
  · intro c hc
    obtain ⟨iSt, s0, rest0, hiSt, hsr, rfl⟩ := hshape c hc
    rcases packChunk_spec cs s0 rest0 with h | ⟨heq, hlen⟩
    · left
      rw [pyJoin_length]
      exact h
    · right
      refine ⟨s0, ?_, by rw [heq]; simp [pyJoin], hlen⟩
      have : s0 ∈ sentences.drop iSt := by rw [hsr]; simp
      exact List.mem_of_mem_drop this
  · intro s hsmem
    obtain ⟨j, hj, rfl⟩ := List.mem_iff_getElem.mp hsmem
    obtain ⟨cl, hcl, hmem⟩ := chunkLists_cover cs ov sentences 0 j hj (Nat.zero_le j)
    obtain ⟨a, b, hab⟩ := pyJoin_mem_decomp cl _ hmem
    exact ⟨pyJoin " " cl, List.mem_map_of_mem _ hcl, a, b, hab⟩

/-- Witness for C3 at a concrete input: `chunk_text 10 3 ["abc.", "de."]`
contains the chunk `"abc. de."`, and by the claim that chunk is
non-empty. -/
theorem claim_c3_chunker_soundness_witness :
    "abc. de." ∈ chunk_text 10 3 ["abc.", "de."] ∧ ("abc. de." : String) ≠ "" := by
  have hmem : "abc. de." ∈ chunk_text 10 3 ["abc.", "de."] := by
    rw [chunk_text_eq_loop]
    decide
  exact ⟨hmem, (claim_c3_chunker_soundness 10 3 ["abc.", "de."] (by decide)
    (by decide)).1 "abc. de." hmem⟩

/-- Claim C4: the chunking loop makes strictly positive index progress on
every iteration, for every `maxSize` and `overlapSize` (including
`overlapSize ≥ maxSize`); the loop bounded to one iteration per
remaining sentence already computes the full result; and the number of
emitted chunks is at most the number of sentences. -/
theorem claim_c4_chunker_progress (cs ov : Nat) (sents : List String) :
    (∀ i, i < sents.length → i < nextIndex cs ov sents i) ∧
    (∀ fuel i, sents.length - i ≤ fuel →
        chunkLoop cs ov sents fuel i = chunkLists cs ov sents i) ∧
    (∀ i, (chunkLists cs ov sents i).length ≤ sents.length - i) := by
  refine ⟨fun i h => nextIndex_gt cs ov sents i h,
    chunkLoop_eq_chunkLists cs ov sents, ?_⟩
  intro i
  induction i using chunkLists.induct cs ov sents with
  | case1 x hx hne ih =>
    rw [chunkLists]
    simp only [dif_pos hx, dif_pos hne]
    omega
  | case2 x hx hne ih =>
    rw [chunkLists]
    simp only [dif_pos hx, dif_neg hne, List.length_cons]
    have := nextIndex_gt cs ov sents x hx
    omega
  | case3 x hx =>
    rw [chunkLists]
    simp [dif_neg hx]

/-- Witness for C4 at a concrete input with `overlapSize ≥ maxSize`:
progress from index 0 and the one-iteration-per-sentence fuel bound. -/
theorem claim_c4_chunker_progress_witness :
    0 < nextIndex 4 9 ["abcde", "fg."] 0 ∧
      chunkLoop 4 9 ["abcde", "fg."] 2 0 = chunkLists 4 9 ["abcde", "fg."] 0 := by
  have h := claim_c4_chunker_progress 4 9 ["abcde", "fg."]
  exact ⟨h.1 0 (by decide), h.2.1 2 0 (by decide)⟩

/-- Claim C1: the facade's filter builder returns no filter for zero provided
criteria, the single predicate unwrapped for one, and an `$and` of
exactly the provided predicates — in input order topic, paper type,
year range — for two or more.  A criterion is provided when its argument
is truthy (`if topic:`), which `providedPreds` captures. -/
theorem claim_c1_filter_builder (topic paper_type : Option String)
    (year_range : Option (Int × Int)) :
    (providedPreds topic paper_type year_range = [] →
        build_filter topic paper_type year_range = none) ∧
    (∀ f, providedPreds topic paper_type year_range = [f] →
        build_filter topic paper_type year_range = some f) ∧
    (2 ≤ (providedPreds topic paper_type year_range).length →
        build_filter topic paper_type year_range =
          some (ChromaFilter.and (providedPreds topic paper_type year_range))) := by
  have hb : build_filter topic paper_type year_range =
      match providedPreds topic paper_type year_range with
      | [] => none
      | [f] => some f
      | fs => some (ChromaFilter.and fs) := rfl
  refine ⟨?_, ?_, ?_⟩
  · intro h
    rw [hb, h]
  · intro f h
    rw [hb, h]
  · intro h
    rcases hpp : providedPreds topic paper_type year_range with _ | ⟨f, _ | ⟨g, fs⟩⟩
    · rw [hpp] at h; simp at h
    · rw [hpp] at h; simp at h
    · rw [hb, hpp]

/-- Witness for C1: with only a topic provided, the builder returns the
single equality predicate unwrapped. -/
theorem claim_c1_filter_builder_witness :
    build_filter (some "Cardiology") none none =
      some (ChromaFilter.eq "topic" "Cardiology") :=
  (claim_c1_filter_builder (some "Cardiology") none none).2.1
    (ChromaFilter.eq "topic" "Cardiology") rfl

/-- Claim C2: the search capability passes the facade a complete inclusive
year range whenever at least one bound is supplied (missing lower bound
defaults to 1900, missing upper bound to 2100), and no range at all when
neither bound is supplied.  `execute` passes exactly
`build_year_range min_year max_year` to `store.search`. -/
theorem claim_c2_year_range (min_year max_year : Option Int) :
    ((min_year.isSome ∨ max_year.isSome) →
        build_year_range min_year max_year =
          some (min_year.getD 1900, max_year.getD 2100)) ∧
    (min_year = none → max_year = none →
        build_year_range min_year max_year = none) := by
  cases min_year <;> cases max_year <;> simp [build_year_range]

/-- Witness for C2: `min_year = 2022` with no `max_year` yields the
range `(2022, 2100)`. -/
theorem claim_c2_year_range_witness :
    build_year_range (some 2022) none = some (2022, 2100) :=
  (claim_c2_year_range (some 2022) none).1 (Or.inl rfl)

/-- A non-empty optional string is truthy. -/
theorem optStrTruthy_some {s : String} (h : s ≠ "") :
    optStrTruthy (some s) = true := by
  have hbe : s.isEmpty = false := by
    cases hbe : s.isEmpty
    · rfl
    · exact absurd ((String.isEmpty_iff s).mp hbe) h
  simp [optStrTruthy, hbe]

/-- Claim C7: on a truthy backend error the capability returns the error text
unchanged; on empty results without an error it returns the "no
results" message, which contains every applied filter value (shown here
for the topic, the paper type, and the year range); the two conditions
are mutually exclusive, so the two cases never produce each other's
output. -/
theorem claim_c7_error_and_empty (store : StoreModel) (prior : List Source)
    (query : String) (topic paper_type : Option String)
    (min_year max_year : Option Int) :
    (∀ e, (store.search query topic paper_type
            (build_year_range min_year max_year)).error = some e → e ≠ "" →
        MedicalLiteratureSearchTool.execute store prior query topic paper_type
          min_year max_year = (e, prior)) ∧
    (optStrTruthy (store.search query topic paper_type
          (build_year_range min_year max_year)).error = false →
      (store.search query topic paper_type
          (build_year_range min_year max_year)).documents = [] →
      (MedicalLiteratureSearchTool.execute store prior query topic paper_type
          min_year max_year).1 =
        noResultsMessage topic paper_type (build_year_range min_year max_year) ∧
      (∀ t, topic = some t → t ≠ "" →
        ∃ a b, noResultsMessage topic paper_type (build_year_range min_year max_year)
          = a ++ t ++ b) ∧
      (∀ p, paper_type = some p → p ≠ "" →
        ∃ a b, noResultsMessage topic paper_type (build_year_range min_year max_year)
          = a ++ p ++ b) ∧
      (∀ lo hi, build_year_range min_year max_year = some (lo, hi) →
        ∃ a b, noResultsMessage topic paper_type (build_year_range min_year max_year)
          = a ++ (toString lo ++ "-" ++ toString hi) ++ b)) := by
  constructor
  · intro e he hene
    simp only [MedicalLiteratureSearchTool.execute]
    rw [he, optStrTruthy_some hene, if_pos rfl]
    rfl
  · intro herr hdoc
    have hemp : (store.search query topic paper_type
        (build_year_range min_year max_year)).is_empty = true := by
      rw [SearchResults.is_empty, hdoc]; rfl
    have hexec : MedicalLiteratureSearchTool.execute store prior query topic
        paper_type min_year max_year =
        (noResultsMessage topic paper_type (build_year_range min_year max_year),
          prior) := by
      simp only [MedicalLiteratureSearchTool.execute]
      rw [herr, if_neg (by simp), hemp, if_pos rfl]
    refine ⟨by rw [hexec], ?_, ?_, ?_⟩
    · intro t ht htne
      refine ⟨"No relevant medical literature found" ++ " in topic \x27",
        "\x27" ++
          ((if optStrTruthy paper_type then
              " of type \x27" ++ paper_type.getD "" ++ "\x27" else "") ++
            (yearInfo (build_year_range min_year max_year) ++ ".")), ?_⟩
      unfold noResultsMessage filterInfo
      rw [ht, optStrTruthy_some htne, if_pos rfl]
      simp only [String.append_assoc, Option.getD_some]
    · intro p hp hpne
      refine ⟨"No relevant medical literature found" ++
          ((if optStrTruthy topic then
              " in topic \x27" ++ topic.getD "" ++ "\x27" else "") ++ " of type \x27"),
        "\x27" ++ (yearInfo (build_year_range min_year max_year) ++ "."), ?_⟩
      unfold noResultsMessage filterInfo
      rw [hp, optStrTruthy_some hpne, if_pos rfl]
      simp only [String.append_assoc, Option.getD_some]
    · intro lo hi hyr
      refine ⟨"No relevant medical literature found" ++
          ((if optStrTruthy topic then
              " in topic \x27" ++ topic.getD "" ++ "\x27" else "") ++
            ((if optStrTruthy paper_type then
                " of type \x27" ++ paper_type.getD "" ++ "\x27" else "") ++
              " from years ")), ".", ?_⟩
      unfold noResultsMessage filterInfo
      rw [hyr, yearInfo]
      simp only [String.append_assoc, Option.getD_some]

/-- Witness for C7: a backend that always errors makes the capability
return the error text verbatim with the prior sources untouched. -/
theorem claim_c7_error_and_empty_witness :
    MedicalLiteratureSearchTool.execute
      { search := fun _ _ _ _ =>
          { documents := [], metadata := [], distances := [], error := some "Search error: down" },
        get_paper_url := fun _ => none }
      [] "q" none none none none = ("Search error: down", []) :=
  (claim_c7_error_and_empty
    { search := fun _ _ _ _ =>
        { documents := [], metadata := [], distances := [], error := some "Search error: down" },
      get_paper_url := fun _ => none }
    [] "q" none none none none).1 "Search error: down" rfl (by decide)

/-- C10 (frame effect): when the capability returns the error output or
the "no results" output, the recorded `last_sources` list is left
exactly as it was — sources are only overwritten on the success path. -/
theorem claim_c10_sources_frame (store : StoreModel) (prior : List Source)
    (query : String) (topic paper_type : Option String)
    (min_year max_year : Option Int)
    (h : optStrTruthy (store.search query topic paper_type
          (build_year_range min_year max_year)).error = true ∨
        (store.search query topic paper_type
          (build_year_range min_year max_year)).documents = []) :
    (MedicalLiteratureSearchTool.execute store prior query topic paper_type
        min_year max_year).2 = prior := by
  simp only [MedicalLiteratureSearchTool.execute]
  rcases h with h | h
  · rw [h, if_pos rfl]
  · by_cases herr : optStrTruthy (store.search query topic paper_type
        (build_year_range min_year max_year)).error = true
    · rw [herr, if_pos rfl]
    · have hemp : (store.search query topic paper_type
          (build_year_range min_year max_year)).is_empty = true := by
        rw [SearchResults.is_empty, h]; rfl
      rw [if_neg herr, hemp, if_pos rfl]

/-- Witness for C10: an erroring backend leaves a previously recorded
source list unchanged. -/
theorem claim_c10_sources_frame_witness :
    (MedicalLiteratureSearchTool.execute
      { search := fun _ _ _ _ =>
          { documents := [], metadata := [], distances := [], error := some "Search error: down" },
        get_paper_url := fun _ => none }
      [{ text := "Old - 2020 - J", url := none }] "q" none none none none).2 =
      [{ text := "Old - 2020 - J", url := none }] :=
  claim_c10_sources_frame
    { search := fun _ _ _ _ =>
        { documents := [], metadata := [], distances := [], error := some "Search error: down" },
      get_paper_url := fun _ => none }
    [{ text := "Old - 2020 - J", url := none }] "q" none none none none
    (Or.inl rfl)

/-- Keys of the source dictionary after the formatting fold: the
first-occurrence insertion fold over the encountered titles. -/
theorem formatFold_keys (store : StoreModel) :
    ∀ (pairs : List (String × ChunkMeta)) (fmts : List String)
      (srcs : List (String × Source)),
      ((pairs.foldl (formatFold store) (fmts, srcs)).2).map Prod.fst =
        pairs.foldl
          (fun acc p => if metaTitle p.2 ∈ acc then acc else acc ++ [metaTitle p.2])
          (srcs.map Prod.fst) := by
  intro pairs
  induction pairs with
  | nil => intro fmts srcs; rfl
  | cons p rest ih =>
    intro fmts srcs
    rcases p with ⟨doc, m⟩
    simp only [List.foldl_cons]
    rw [show formatFold store (fmts, srcs) (doc, m) =
      (fmts ++ [resultHeader m ++ "\n" ++ doc],
        if metaTitle m ∈ srcs.map Prod.fst then srcs
        else srcs ++ [(metaTitle m, mkSource store m)]) from rfl]
    rw [ih]
    congr 1
    by_cases hmem : metaTitle m ∈ srcs.map Prod.fst
    · rw [if_pos hmem, if_pos hmem]
    · rw [if_neg hmem, if_neg hmem]
      simp

/-- First-occurrence insertion preserves `Nodup`. -/
theorem foldl_insert_nodup :
    ∀ (l acc : List String), acc.Nodup →
      (l.foldl (fun acc t => if t ∈ acc then acc else acc ++ [t]) acc).Nodup := by
  intro l
  induction l with
  | nil => intro acc h; exact h
  | cons x rest ih =>
    intro acc h
    simp only [List.foldl_cons]
    by_cases hx : x ∈ acc
    · rw [if_pos hx]; exact ih acc h
    · rw [if_neg hx]
      refine ih (acc ++ [x]) ?_
      simp [List.nodup_append, h, hx]

/-- Membership after first-occurrence insertion. -/
theorem foldl_insert_mem :
    ∀ (l acc : List String) (t : String),
      t ∈ l.foldl (fun acc t => if t ∈ acc then acc else acc ++ [t]) acc ↔
        t ∈ acc ∨ t ∈ l := by
  intro l
  induction l with
  | nil => intro acc t; simp
  | cons x rest ih =>
    intro acc t
    simp only [List.foldl_cons]
    by_cases hx : x ∈ acc
    · rw [if_pos hx, ih]
      constructor
      · rintro (h | h)
        · exact Or.inl h
        · exact Or.inr (List.mem_cons_of_mem _ h)
      · rintro (h | h)
        · exact Or.inl h
        · rcases List.mem_cons.mp h with rfl | h'
          · exact Or.inl hx
          · exact Or.inr h'
    · rw [if_neg hx, ih]
      simp only [List.mem_append, List.mem_singleton, List.mem_cons]
      tauto

/-- `firstOccur` has no duplicates. -/
theorem firstOccur_nodup (l : List String) : (firstOccur l).Nodup :=
  foldl_insert_nodup l [] List.nodup_nil

/-- `firstOccur` keeps exactly the members of the input. -/
theorem mem_firstOccur (l : List String) (t : String) :
    t ∈ firstOccur l ↔ t ∈ l := by
  rw [firstOccur, foldl_insert_mem]
  simp

/-- Claim C6: on the success path, the recorded citation sources are the
values of the insertion-ordered source dictionary; its keys are exactly
the distinct document titles of the results in first-occurrence order
(one entry per distinct title), and the result overwrites whatever
`last_sources` held before (the prior sources do not appear on the
right-hand side). -/
theorem claim_c6_source_dedup (store : StoreModel) (prior : List Source)
    (query : String) (topic paper_type : Option String)
    (min_year max_year : Option Int)
    (herr : optStrTruthy (store.search query topic paper_type
        (build_year_range min_year max_year)).error = false)
    (hne : (store.search query topic paper_type
        (build_year_range min_year max_year)).documents ≠ []) :
    ((MedicalLiteratureSearchTool.execute store prior query topic paper_type
        min_year max_year).2 =
      (sourcesAssoc store
        (searchPairs store query topic paper_type min_year max_year)).map Prod.snd) ∧
    ((sourcesAssoc store
        (searchPairs store query topic paper_type min_year max_year)).map Prod.fst =
      firstOccur ((searchPairs store query topic paper_type min_year max_year).map
        (fun p => metaTitle p.2))) ∧
    (firstOccur ((searchPairs store query topic paper_type min_year max_year).map
        (fun p => metaTitle p.2))).Nodup ∧
    (∀ t, t ∈ firstOccur ((searchPairs store query topic paper_type min_year max_year).map
        (fun p => metaTitle p.2)) ↔
      t ∈ (searchPairs store query topic paper_type min_year max_year).map
        (fun p => metaTitle p.2)) := by
  refine ⟨?_, ?_, firstOccur_nodup _, fun t => mem_firstOccur _ t⟩
  · simp only [MedicalLiteratureSearchTool.execute]
    rw [herr, if_neg (by simp)]
    rw [if_neg (by simp [SearchResults.is_empty, List.isEmpty_iff, hne])]
    rfl
  · show ((searchPairs store query topic paper_type min_year max_year).foldl
        (formatFold store) ([], [])).2.map Prod.fst = _
    rw [formatFold_keys store _ [] []]
    rw [firstOccur, List.foldl_map]
    rfl

/-- Witness for C6: two hits from the same paper title yield exactly one
recorded citation source. -/
theorem claim_c6_source_dedup_witness :
    (MedicalLiteratureSearchTool.execute dupStore [] "q" none none none none).2 =
      [{ text := "T - 2020 - J", url := some "https://doi.org/10.1/x" }] := by
  have h := claim_c6_source_dedup dupStore [] "q" none none none none rfl
    (by decide)
  rw [h.1]
  rfl

/-- The body-section loop numbers its chunks consecutively from the
running counter. -/
theorem buildSectionChunks_indices (chunker : String → List String)
    (title : String) (pmcid doi journal : Option String) (year : Option Int)
    (topic : Option String) :
    ∀ (sections : List (Option String × String)) (counter : Nat),
      (buildSectionChunks chunker title pmcid doi journal year topic sections
          counter).map (fun ch => ch.chunk_index) =
        List.range' counter
          (buildSectionChunks chunker title pmcid doi journal year topic sections
            counter).length := by
  intro sections
  induction sections with
  | nil => intro counter; rfl
  | cons sc rest ih =>
    intro counter
    rcases sc with ⟨t, c⟩
    simp only [buildSectionChunks, List.map_append, List.length_append]
    rw [ih]
    have h1 : (((chunker c).enumFrom counter).map
        (fun kp => mkPaperChunk title pmcid doi journal year topic
          (sectionLabel t) kp.2 kp.1)).map (fun ch => ch.chunk_index) =
        List.range' counter (chunker c).length := by
      rw [List.map_map]
      rw [show ((fun ch : PaperChunk => ch.chunk_index) ∘
          (fun kp : Nat × String => mkPaperChunk title pmcid doi journal year topic
            (sectionLabel t) kp.2 kp.1)) = Prod.fst from rfl]
      exact List.enumFrom_map_fst counter (chunker c)
    rw [h1]
    have h2 : (((chunker c).enumFrom counter).map
        (fun kp => mkPaperChunk title pmcid doi journal year topic
          (sectionLabel t) kp.2 kp.1)).length = (chunker c).length := by
      simp
    rw [h2, List.range'_append_1, Nat.add_comm]

/-- Every chunk of the body-section loop carries the label of one of the
walked sections. -/
theorem buildSectionChunks_labels (chunker : String → List String)
    (title : String) (pmcid doi journal : Option String) (year : Option Int)
    (topic : Option String) :
    ∀ (sections : List (Option String × String)) (counter : Nat)
      (ch : PaperChunk),
      ch ∈ buildSectionChunks chunker title pmcid doi journal year topic
        sections counter →
      ∃ sc ∈ sections, ch.section_title = sectionLabel sc.1 := by
  intro sections
  induction sections with
  | nil => intro counter ch h; exact absurd h (List.not_mem_nil ch)
  | cons sc rest ih =>
    intro counter ch h
    rcases sc with ⟨t, c⟩
    simp only [buildSectionChunks, List.mem_append] at h
    rcases h with h | h
    · rw [List.mem_map] at h
      obtain ⟨kp, _, rfl⟩ := h
      exact ⟨(t, c), List.mem_cons_self _ _, rfl⟩
    · obtain ⟨sc', hsc', heq⟩ := ih (counter + (chunker c).length) ch h
      exact ⟨sc', List.mem_cons_of_mem _ hsc', heq⟩

/-- Claim C5: for every parsed document, the emitted chunk indices are exactly
`0, 1, 2, ...` (contiguous and monotonically increasing); a (truthy)
abstract is emitted as exactly one leading chunk with index 0 and label
"Abstract"; body sections follow in document order, each chunk labelled
with its section's resolved label, where a missing title element
resolves to "Untitled Section".  Stated for an arbitrary `chunker`, so
it holds in particular for `chunk_text` composed with the sentence
split. -/
theorem claim_c5_chunk_indices (chunker : String → List String)
    (title : String) (pmcid doi journal : Option String) (year : Option Int)
    (topic : Option String) (abstract : Option String)
    (sections : List (Option String × String)) :
    ((processPaperChunks chunker title pmcid doi journal year topic abstract
        sections).map (fun ch => ch.chunk_index) =
      List.range (processPaperChunks chunker title pmcid doi journal year topic
        abstract sections).length) ∧
    (∀ a, abstract = some a → a ≠ "" →
      (processPaperChunks chunker title pmcid doi journal year topic abstract
          sections).head? =
        some (mkPaperChunk title pmcid doi journal year topic "Abstract" a 0)) ∧
    (∀ ch ∈ processPaperChunks chunker title pmcid doi journal year topic
        abstract sections,
      ch.section_title = "Abstract" ∨
        ∃ sc ∈ sections, ch.section_title = sectionLabel sc.1) ∧
    sectionLabel none = "Untitled Section" := by
  refine ⟨?_, ?_, ?_, rfl⟩
  · by_cases habs : optStrTruthy abstract = true
    · simp only [processPaperChunks, habs, if_true, List.singleton_append,
        List.map_cons, List.length_cons]
      rw [show (mkPaperChunk title pmcid doi journal year topic "Abstract"
          (abstract.getD "") 0).chunk_index = 0 from rfl]
      rw [buildSectionChunks_indices]
      rw [List.range_eq_range']
      rfl
    · have habs' : optStrTruthy abstract = false := by
        cases h : optStrTruthy abstract
        · rfl
        · exact absurd h habs
      simp only [processPaperChunks, habs', Bool.false_eq_true, if_false,
        List.nil_append, List.length_nil]
      rw [buildSectionChunks_indices, List.range_eq_range']
  · intro a ha hane
    have habs : optStrTruthy (some a) = true := optStrTruthy_some hane
    simp only [processPaperChunks, ha, habs, if_true, Option.getD_some,
      List.singleton_append, List.head?_cons]
  · intro ch hch
    by_cases habs : optStrTruthy abstract = true
    · simp only [processPaperChunks, habs, if_true, List.singleton_append,
        List.mem_cons] at hch
      rcases hch with rfl | hch
      · exact Or.inl rfl
      · exact Or.inr (buildSectionChunks_labels chunker title pmcid doi journal
          year topic sections _ ch hch)
    · have habs' : optStrTruthy abstract = false := by
        cases h : optStrTruthy abstract
        · rfl
        · exact absurd h habs
      simp only [processPaperChunks, habs', Bool.false_eq_true, if_false,
        List.nil_append] at hch
      exact Or.inr (buildSectionChunks_labels chunker title pmcid doi journal
        year topic sections _ ch hch)

/-- Witness for C5: a document with an abstract and two sections (the
second without a title element), chunked one piece per section. -/
theorem claim_c5_chunk_indices_witness :
    (processPaperChunks (fun s => [s]) "T" none none none none none
        (some "Abs text") [(some "Intro", "i1"), (none, "b1")]).map
      (fun ch => ch.chunk_index) = [0, 1, 2] ∧
    (processPaperChunks (fun s => [s]) "T" none none none none none
        (some "Abs text") [(some "Intro", "i1"), (none, "b1")]).head? =
      some (mkPaperChunk "T" none none none none none "Abstract" "Abs text" 0) := by
  have h := claim_c5_chunk_indices (fun s => [s]) "T" none none none none none
    (some "Abs text") [(some "Intro", "i1"), (none, "b1")]
  exact ⟨by rw [h.1]; rfl, h.2.1 "Abs text" rfl (by decide)⟩

/-- One tool result is collected per requested invocation. -/
theorem collectToolResults_length {Input : Type} (exec : String → Input → String) :
    ∀ bs : List (ContentBlock Input),
      (collectToolResults exec bs).length = countToolUses bs
  | [] => rfl
  | ContentBlock.text _ :: rest => collectToolResults_length exec rest
  | ContentBlock.toolUse _ _ _ :: rest => by
      simp only [collectToolResults, countToolUses, List.length_cons]
      rw [collectToolResults_length exec rest]

/-- Claim C8: if the first model call's stop reason is not `tool_use`, no
capability executes, no second call happens, and the answer is the text
of the first content block; if it is `tool_use` with exactly one
requested invocation, exactly one capability executes and the second
call receives the original message list plus two messages (assistant
tool request, user tool result) with the tool schema omitted. -/
theorem claim_c8_orchestrator {Input Schema : Type}
    (client : GenRequest Input Schema → ModelResponse Input)
    (exec : String → Input → String) (systemPrompt query : String)
    (history : Option String) (tools : Option (List Schema)) :
    ((client
        { messages := initialMessages Input query,
          system := systemContent systemPrompt history,
          tools := toolsParam tools }).stop_reason ≠ "tool_use" →
      (generate_response client systemPrompt query history tools
          (some exec)).toolExecutions = 0 ∧
      (generate_response client systemPrompt query history tools
          (some exec)).secondCallMessages = none ∧
      (∀ t bs, (client
          { messages := initialMessages Input query,
            system := systemContent systemPrompt history,
            tools := toolsParam tools }).content = ContentBlock.text t :: bs →
        (generate_response client systemPrompt query history tools
            (some exec)).answer = some t)) ∧
    ((client
        { messages := initialMessages Input query,
          system := systemContent systemPrompt history,
          tools := toolsParam tools }).stop_reason = "tool_use" →
      countToolUses (client
          { messages := initialMessages Input query,
            system := systemContent systemPrompt history,
            tools := toolsParam tools }).content = 1 →
      (generate_response client systemPrompt query history tools
          (some exec)).toolExecutions = 1 ∧
      (generate_response client systemPrompt query history tools
          (some exec)).secondCallTools = none ∧
      (∃ msgs, (generate_response client systemPrompt query history tools
            (some exec)).secondCallMessages = some msgs ∧
        msgs.length = (initialMessages Input query).length + 2)) := by
  constructor
  · intro hsr
    simp only [generate_response]
    rw [if_neg hsr]
    refine ⟨rfl, rfl, ?_⟩
    intro t bs hcontent
    simp only [hcontent]
  · intro hsr hcount
    simp only [generate_response]
    rw [if_pos hsr]
    simp only [handleToolExecution]
    have hlen : (collectToolResults exec (client
        { messages := initialMessages Input query,
          system := systemContent systemPrompt history,
          tools := toolsParam tools }).content).length = 1 := by
      rw [collectToolResults_length]; exact hcount
    have hnn : collectToolResults exec (client
        { messages := initialMessages Input query,
          system := systemContent systemPrompt history,
          tools := toolsParam tools }).content ≠ [] := by
      intro hnil; rw [hnil] at hlen; simp at hlen
    have hne : (collectToolResults exec (client
        { messages := initialMessages Input query,
          system := systemContent systemPrompt history,
          tools := toolsParam tools }).content).isEmpty = false := by
      cases hie : (collectToolResults exec (client
          { messages := initialMessages Input query,
            system := systemContent systemPrompt history,
            tools := toolsParam tools }).content).isEmpty
      · rfl
      · exact absurd (List.isEmpty_iff.mp hie) hnn
    rw [hne, if_neg (by simp)]
    refine ⟨?_, ?_, ?_⟩
    · exact hlen
    · trivial
    · exact ⟨_, rfl, by simp [initialMessages]⟩

/-- Witness for C8: a client whose first response requests exactly one
tool invocation; the trace records one execution. -/
theorem claim_c8_orchestrator_witness :
    (generate_response
        (fun req : GenRequest Nat Nat => if req.tools.isSome then
            { stop_reason := "tool_use",
              content := [ContentBlock.toolUse "search_medical_literature" 0 "id1"] }
          else { stop_reason := "end_turn", content := [ContentBlock.text "done"] })
        "sys" "q" none (some [0]) (some (fun _ _ => "result"))).toolExecutions = 1 := by
  have h := (claim_c8_orchestrator
      (fun req => if req.tools.isSome then
          { stop_reason := "tool_use",
            content := [ContentBlock.toolUse "search_medical_literature" 0 "id1"] }
        else { stop_reason := "end_turn", content := [ContentBlock.text "done"] })
      (fun _ _ => "result") "sys" "q" none (some [0])).2 (by decide) (by decide)
  exact h.1

/-- Claim C9: re-ingesting a document whose title is already in the store with
`clear_existing = false` skips it: the store state is unchanged and both
counters stay zero, so the document count and the stored record for the
title are unchanged. -/
theorem claim_c9_duplicate_skip (st : VectorStoreState) (paper : Paper)
    (chunks : List PaperChunk)
    (h : paper.title ∈ get_existing_paper_titles st) :
    add_papers_from_folder st false [some (paper, chunks)] = (st, 0, 0) ∧
    get_paper_count (add_papers_from_folder st false
        [some (paper, chunks)]).1 = get_paper_count st := by
  have hmain : add_papers_from_folder st false [some (paper, chunks)] =
      (st, 0, 0) := by
    simp only [add_papers_from_folder, Bool.false_eq_true, if_false]
    simp only [ingestLoop]
    rw [if_pos h]
  exact ⟨hmain, by rw [hmain]⟩

/-- Witness for C9: a store already holding title "T" is unchanged by a
second folder ingestion of a paper titled "T". -/
theorem claim_c9_duplicate_skip_witness :
    add_papers_from_folder
      { catalog :=
          [("T",
            { title := "T", pmcid := none, doi := none, journal := none,
              year := none, authors := [], paper_type := none, topic := none,
              keywords := [] })],
        content := [] } false
      [some ({ title := "T", pmcid := none, doi := none, journal := none,
               year := none, authors := [], paper_type := none, topic := none,
               keywords := [] }, [])] =
      ({ catalog :=
          [("T",
            { title := "T", pmcid := none, doi := none, journal := none,
              year := none, authors := [], paper_type := none, topic := none,
              keywords := [] })],
         content := [] }, 0, 0) :=
  (claim_c9_duplicate_skip
    { catalog :=
        [("T",
          { title := "T", pmcid := none, doi := none, journal := none,
            year := none, authors := [], paper_type := none, topic := none,
            keywords := [] })],
      content := [] }
    { title := "T", pmcid := none, doi := none, journal := none,
      year := none, authors := [], paper_type := none, topic := none,
      keywords := [] }
    [] (by decide)).1

end MedRag
